import Mathlib

/-!
Shallow embedding of the BusTub buffer-pool subsystem:
`src/buffer/lru_replacer.cpp` (class `LRUReplacer`) and
`src/buffer/buffer_pool_manager.cpp` (class `BufferPoolManager`).

Conventions of the embedding:
* `frame_id_t` values are non-negative in every use; we model frames as `Nat`
  and the `-1` sentinel returned by `PickVictimFrameL` as `Option.none`.
* `page_id_t` is a signed integer (`INVALID_PAGE_ID = -1`), modelled as `Int`.
  Where the C++ source passes a `frame_id_t` where a `page_id_t` is expected
  (it does, in `FetchPageImpl` and `FlushAllPagesImpl`), the implicit integer
  conversion is modelled as `Int.ofNat`.
* A page's content buffer is abstracted to a single `Nat` value (`0` = the
  zero-filled buffer); the operations only ever copy whole buffers.
* `std::unordered_map<page_id_t, frame_id_t> page_table_` is modelled as an
  association list; `operator[]` in an rvalue position value-initialises an
  absent key to frame `0`, exactly as in C++.
* The latches (`latch_`) serialise calls; the embedding is the sequential
  semantics of each call.
-/

/-- `INVALID_PAGE_ID` sentinel for a free frame. -/
def INVALID_PAGE_ID : Int := -1

/-- Per-frame metadata and content of class `Page` (header not under `src/`):
identifier, pin count, dirty flag, abstracted content buffer. -/
structure Page where
  page_id : Int
  pin_count : Int
  is_dirty : Bool
  data : Nat
deriving Repr, DecidableEq

/-- Modelled from the spec: frames start "free with invalid page identifier,
zero protection, clean" (§3 Lifecycle); the `Page` class itself is declared in
a header that is not under `src/`. Content buffer starts zero-filled. -/
def Page.init : Page := ⟨INVALID_PAGE_ID, 0, false, 0⟩

/-- State of `LRUReplacer` (`src/buffer/lru_replacer.cpp`): capacity
`max_num_pages_` and the recency list `ring_buffer_` (head = front = most
recently unpinned, last = back = least recently unpinned).  The iterator map
`frame_it_map_` always indexes exactly the elements of `ring_buffer_`, so the
list alone carries the state. -/
structure LRUReplacer where
  max_num_pages : Nat
  ring_buffer : List Nat
deriving Repr, DecidableEq

/-- `LRUReplacer::LRUReplacer(size_t num_pages)`. -/
def LRUReplacer.new (num_pages : Nat) : LRUReplacer := ⟨num_pages, []⟩

/-- `LRUReplacer::Victim`: if the ring buffer is empty return `false` (here
`none`); otherwise remove and return the back element. -/
def LRUReplacer.Victim (r : LRUReplacer) : Option Nat × LRUReplacer :=
  match r.ring_buffer.getLast? with
  | none => (none, r)
  | some f => (some f, { r with ring_buffer := r.ring_buffer.dropLast })

/-- `LRUReplacer::Pin`: remove the frame from the ring buffer if present. -/
def LRUReplacer.Pin (r : LRUReplacer) (f : Nat) : LRUReplacer :=
  if f ∈ r.ring_buffer then { r with ring_buffer := r.ring_buffer.erase f } else r

/-- `LRUReplacer::Unpin`: no-op when the frame is already tracked; when the
ring buffer has reached `max_num_pages_` first evict a victim; then push the
frame to the front. -/
def LRUReplacer.Unpin (r : LRUReplacer) (f : Nat) : LRUReplacer :=
  if f ∈ r.ring_buffer then r
  else
    let r1 := if r.ring_buffer.length = r.max_num_pages then (r.Victim).2 else r
    { r1 with ring_buffer := f :: r1.ring_buffer }

/-- `LRUReplacer::Size`. -/
def LRUReplacer.Size (r : LRUReplacer) : Nat := r.ring_buffer.length

/-- Modelled from the spec: the external page store (`DiskManager`, not under
`src/`): `allocate_page` reserves a fresh identifier never colliding with a
live one (consecutive counter), `read_page`/`write_page` copy whole page
buffers, `deallocate_page` releases an identifier (no effect on stored bytes).
-/
structure DiskManager where
  next_page_id : Int
  disk : List (Int × Nat)
deriving Repr, DecidableEq

/-- Modelled from the spec: `allocate_page() -> page_id` hands out the next
consecutive identifier. -/
def DiskManager.AllocatePage (dm : DiskManager) : Int × DiskManager :=
  (dm.next_page_id, { dm with next_page_id := dm.next_page_id + 1 })

/-- Modelled from the spec: `read_page` yields the stored bytes, or the
zero-filled buffer for a never-written page. -/
def DiskManager.ReadPage (dm : DiskManager) (pid : Int) : Nat :=
  match dm.disk.find? (fun e => e.1 == pid) with
  | some e => e.2
  | none => 0

/-- Modelled from the spec: `write_page` stores exactly the given buffer at
the given identifier. -/
def DiskManager.WritePage (dm : DiskManager) (pid : Int) (d : Nat) : DiskManager :=
  { dm with disk := (pid, d) :: dm.disk.filter (fun e => e.1 != pid) }

/-- Modelled from the spec: `deallocate_page(page_id)` releases the
identifier; it does not touch stored bytes. -/
def DiskManager.DeallocatePage (dm : DiskManager) (_pid : Int) : DiskManager := dm

/-- The page table `std::unordered_map<page_id_t, frame_id_t>`. -/
abbrev PageTable := List (Int × Nat)

/-- `page_table_.find(k)` (value part). -/
def ptFind (pt : PageTable) (k : Int) : Option Nat :=
  (pt.find? (fun e => e.1 == k)).map (fun e => e.2)

/-- `page_table_.erase(k)`. -/
def ptErase (pt : PageTable) (k : Int) : PageTable :=
  pt.filter (fun e => e.1 != k)

/-- `page_table_[k] = v` (insert or overwrite). -/
def ptSet (pt : PageTable) (k : Int) (v : Nat) : PageTable :=
  if (ptFind pt k).isSome then pt.map (fun e => if e.1 == k then (k, v) else e)
  else pt ++ [(k, v)]

/-- `page_table_[k]` in an rvalue position: yields the mapped frame, after
value-initialising an absent key to frame `0` (the C++ `operator[]`
default-insertion). Returns the value read and the possibly-grown table. -/
def ptIndexRead (pt : PageTable) (k : Int) : Nat × PageTable :=
  match ptFind pt k with
  | some v => (v, pt)
  | none => (0, pt ++ [(k, 0)])

/-- State of `BufferPoolManager` (`src/buffer/buffer_pool_manager.cpp`):
frame array `pages_`, page table, free list, replacer, and the external
store it talks to. -/
structure BufferPoolManager where
  pool_size : Nat
  pages : List Page
  page_table : PageTable
  free_list : List Nat
  replacer : LRUReplacer
  dm : DiskManager
deriving Repr, DecidableEq

/-- `BufferPoolManager::BufferPoolManager`: all frames start free (the free
list holds `0, …, pool_size-1` front-first) and the replacer has capacity
`pool_size`. -/
def BufferPoolManager.new (pool_size : Nat) : BufferPoolManager :=
  { pool_size := pool_size
    pages := List.replicate pool_size Page.init
    page_table := []
    free_list := List.range pool_size
    replacer := LRUReplacer.new pool_size
    dm := ⟨0, []⟩ }

/-- `pages_[f]` (read). -/
def BufferPoolManager.getPage (b : BufferPoolManager) (f : Nat) : Page :=
  b.pages.getD f Page.init

/-- `pages_[f] = p` (write). -/
def BufferPoolManager.setPage (b : BufferPoolManager) (f : Nat) (p : Page) : BufferPoolManager :=
  { b with pages := b.pages.set f p }

/-- Modelled from the spec: `UpdatePageMetaData(page, pid)` (defined in the
header, not under `src/`) resets a frame's metadata for its new occupant:
the given identifier, "zero protection, clean" (§4.2 DeletePage: "reset the
frame to the free state (invalid identifier, zero protection, clean)";
Fetch/NewPage then re-raise the pin count by one themselves). -/
def UpdatePageMetaData (p : Page) (pid : Int) : Page :=
  { p with page_id := pid, pin_count := 0, is_dirty := false }

/-- `BufferPoolManager::PickVictimFrameL`: take the front of the free list if
non-empty, otherwise ask the replacer for a victim; `-1` becomes `none`. -/
def BufferPoolManager.PickVictimFrameL (b : BufferPoolManager) : Option Nat × BufferPoolManager :=
  match b.free_list with
  | f :: rest => (some f, { b with free_list := rest })
  | [] =>
    match b.replacer.Victim with
    | (of, r) => (of, { b with replacer := r })

/-- `BufferPoolManager::FlushPageImplL`: false when the page is not in the
page table; write back and clear the dirty bit when dirty; true. -/
def BufferPoolManager.FlushPageImplL (b : BufferPoolManager) (pid : Int) : Bool × BufferPoolManager :=
  match ptFind b.page_table pid with
  | none => (false, b)
  | some f =>
    let p := b.getPage f
    if p.is_dirty then
      (true, { b.setPage f { p with is_dirty := false } with dm := b.dm.WritePage pid p.data })
    else (true, b)

/-- `BufferPoolManager::FlushPageImpl` (adds only the latch). -/
def BufferPoolManager.FlushPageImpl (b : BufferPoolManager) (pid : Int) : Bool × BufferPoolManager :=
  b.FlushPageImplL pid

/-- `BufferPoolManager::FetchPageImpl`. On a hit: `replacer_->Pin(frame)` and
increment the pin count. On a miss: pick a victim frame; if the victim frame
is dirty, call `FlushPageImplL(page_table_[frame_id])` — note the source
indexes the page table by the *frame* id here, default-inserting an absent
key; then erase the victim's page id, install the new mapping, reset
metadata, pin, and read the page in from the store. -/
def BufferPoolManager.FetchPageImpl (b : BufferPoolManager) (pid : Int) : Option Nat × BufferPoolManager :=
  match ptFind b.page_table pid with
  | some f =>
    let b1 := { b with replacer := b.replacer.Pin f }
    let p := b1.getPage f
    (some f, b1.setPage f { p with pin_count := p.pin_count + 1 })
  | none =>
    match b.PickVictimFrameL with
    | (none, b1) => (none, b1)
    | (some f, b1) =>
      let victim_page_id := (b1.getPage f).page_id
      let b2 :=
        if (b1.getPage f).is_dirty then
          let kpt := ptIndexRead b1.page_table (Int.ofNat f)
          ({ b1 with page_table := kpt.2 }.FlushPageImplL kpt.1).2
        else b1
      let b3 := { b2 with page_table := ptSet (ptErase b2.page_table victim_page_id) pid f }
      let p := UpdatePageMetaData (b3.getPage f) pid
      let p1 := { p with pin_count := p.pin_count + 1 }
      let p2 := { p1 with data := b3.dm.ReadPage pid }
      (some f, b3.setPage f p2)

/-- `BufferPoolManager::UnpinPageImpl`: false when not resident; set the
dirty bit when `is_dirty`; then false when the pin count is already `≤ 0`;
otherwise decrement, and register the frame with the replacer when the count
reaches zero. -/
def BufferPoolManager.UnpinPageImpl (b : BufferPoolManager) (pid : Int) (is_dirty : Bool) : Bool × BufferPoolManager :=
  match ptFind b.page_table pid with
  | none => (false, b)
  | some f =>
    let b1 := if is_dirty then b.setPage f { b.getPage f with is_dirty := true } else b
    let p := b1.getPage f
    if p.pin_count ≤ 0 then (false, b1)
    else
      let b2 := b1.setPage f { p with pin_count := p.pin_count - 1 }
      if p.pin_count - 1 = 0 then (true, { b2 with replacer := b2.replacer.Unpin f })
      else (true, b2)

/-- `BufferPoolManager::AllPagesPinnedL`. -/
def BufferPoolManager.AllPagesPinnedL (b : BufferPoolManager) : Bool :=
  b.replacer.Size == 0 && b.free_list.isEmpty

/-- `BufferPoolManager::NewPageImpl`: fail when `AllPagesPinnedL`; allocate a
fresh page id from the store, pick a victim frame, flush it if dirty (here
the source correctly flushes `victim_page_id`), erase the victim's mapping,
reset metadata, pin, zero the buffer, install the new mapping. When
`AllPagesPinnedL` is false `PickVictimFrameL` always finds a frame; the
(unreachable) contrary branch returns failure. -/
def BufferPoolManager.NewPageImpl (b : BufferPoolManager) : Option (Int × Nat) × BufferPoolManager :=
  if b.AllPagesPinnedL then (none, b)
  else
    let pdm := b.dm.AllocatePage
    let b0 := { b with dm := pdm.2 }
    match b0.PickVictimFrameL with
    | (none, b1) => (none, b1)
    | (some f, b1) =>
      let victim_page_id := (b1.getPage f).page_id
      let b2 := if (b1.getPage f).is_dirty then (b1.FlushPageImplL victim_page_id).2 else b1
      let b3 := { b2 with page_table := ptErase b2.page_table victim_page_id }
      let p := UpdatePageMetaData (b3.getPage f) pdm.1
      let p1 := { p with pin_count := p.pin_count + 1 }
      let p2 := { p1 with data := 0 }
      let b4 := b3.setPage f p2
      (some (pdm.1, f), { b4 with page_table := ptSet b4.page_table pdm.1 f })

/-- `BufferPoolManager::DeletePageImpl`: true when not resident; false when
still pinned; otherwise deallocate the id at the store, erase the mapping,
reset the frame metadata to invalid, and push the frame on the free list. -/
def BufferPoolManager.DeletePageImpl (b : BufferPoolManager) (pid : Int) : Bool × BufferPoolManager :=
  match ptFind b.page_table pid with
  | none => (true, b)
  | some f =>
    if (b.getPage f).pin_count > 0 then (false, b)
    else
      let b1 := { b with dm := b.dm.DeallocatePage pid }
      let b2 := { b1 with page_table := ptErase b1.page_table pid }
      let b3 := b2.setPage f (UpdatePageMetaData (b2.getPage f) INVALID_PAGE_ID)
      (true, { b3 with free_list := b3.free_list ++ [f] })

/-- One iteration of the `FlushAllPagesImpl` loop body at index `i`: the
source checks `pages_[i].IsDirty()` and then calls `FlushPageImplL(i)` —
passing the *frame index* `i` where a page id is expected. -/
def BufferPoolManager.flushAllStep (b : BufferPoolManager) (i : Nat) : BufferPoolManager :=
  if (b.getPage i).is_dirty then (b.FlushPageImplL (Int.ofNat i)).2 else b

/-- `BufferPoolManager::FlushAllPagesImpl`: the loop `for i in [0, pool_size)`. -/
def BufferPoolManager.FlushAllPagesImpl (b : BufferPoolManager) : BufferPoolManager :=
  (List.range b.pool_size).foldl BufferPoolManager.flushAllStep b

/-- A caller holding the handle of frame `f` writes bytes `d` into the frame's
content buffer (§5 shared-resource policy: callers mutate the buffer directly
through the returned `Page *` between Fetch and the matching Unpin). -/
def BufferPoolManager.writeData (b : BufferPoolManager) (f : Nat) (d : Nat) : BufferPoolManager :=
  b.setPage f { b.getPage f with data := d }

/-- The public pool-manager operations, for describing call sequences. -/
inductive Op where
  | fetch (pid : Int)
  | unpin (pid : Int) (is_dirty : Bool)
  | flush (pid : Int)
  | flushAll
  | newPage
  | deletePage (pid : Int)
deriving Repr, DecidableEq

/-- Apply one public operation (discarding the returned value). -/
def applyOp (b : BufferPoolManager) : Op → BufferPoolManager
  | .fetch pid => (b.FetchPageImpl pid).2
  | .unpin pid d => (b.UnpinPageImpl pid d).2
  | .flush pid => (b.FlushPageImpl pid).2
  | .flushAll => b.FlushAllPagesImpl
  | .newPage => (b.NewPageImpl).2
  | .deletePage pid => (b.DeletePageImpl pid).2

/-- Run a call sequence from a state. -/
def runOps (b : BufferPoolManager) (ops : List Op) : BufferPoolManager :=
  ops.foldl applyOp b

/-- The replacer-level operations, for describing call sequences against the
eviction policy alone (spec §4.1: `track` = `Unpin`, `untrack` = `Pin`,
`evict` = `Victim`). -/
inductive ROp where
  | track (f : Nat)
  | untrack (f : Nat)
  | evict
deriving Repr, DecidableEq

/-- Apply one replacer operation. -/
def rapply (r : LRUReplacer) : ROp → LRUReplacer
  | .track f => r.Unpin f
  | .untrack f => r.Pin f
  | .evict => (r.Victim).2

/-- Run a replacer call sequence from a freshly constructed replacer. -/
def rrun (cap : Nat) (ops : List ROp) : LRUReplacer :=
  ops.foldl rapply (LRUReplacer.new cap)

/-- Ghost model of the replacer used to express recency of `track` calls:
each tracked frame carries the stamp of the effective `track` call that made
it tracked; the clock advances on every effective `track`.  Buffer is most
recent first, like `ring_buffer_`. -/
structure GReplacer where
  cap : Nat
  buf : List (Nat × Nat)
  clock : Nat
deriving Repr, DecidableEq

/-- Fresh ghost replacer. -/
def GReplacer.new (cap : Nat) : GReplacer := ⟨cap, [], 0⟩

/-- Ghost `track`: mirror of `LRUReplacer.Unpin` carrying stamps. -/
def gtrack (g : GReplacer) (f : Nat) : GReplacer :=
  if f ∈ g.buf.map Prod.fst then g
  else
    let buf1 := if g.buf.length = g.cap then g.buf.dropLast else g.buf
    ⟨g.cap, (f, g.clock) :: buf1, g.clock + 1⟩

/-- Ghost `untrack`: mirror of `LRUReplacer.Pin`. -/
def guntrack (g : GReplacer) (f : Nat) : GReplacer :=
  ⟨g.cap, g.buf.filter (fun e => e.1 != f), g.clock⟩

/-- Ghost `evict`: mirror of `LRUReplacer.Victim`. -/
def gevict (g : GReplacer) : GReplacer := ⟨g.cap, g.buf.dropLast, g.clock⟩

/-- Apply one ghost operation. -/
def gapply (g : GReplacer) : ROp → GReplacer
  | .track f => gtrack g f
  | .untrack f => guntrack g f
  | .evict => gevict g

/-- Run a ghost call sequence from a fresh ghost replacer. -/
def grun (cap : Nat) (ops : List ROp) : GReplacer :=
  ops.foldl gapply (GReplacer.new cap)

/-- Simulation invariant between the implementation replacer and its stamped
ghost: same capacity, the ring buffer is the frame projection of the stamped
buffer, frames are not duplicated, stamps strictly decrease towards the back
(back = smallest stamp = tracked longest), and all stamps are below the
clock. -/
def GInv (r : LRUReplacer) (g : GReplacer) : Prop :=
  r.max_num_pages = g.cap ∧
  r.ring_buffer = g.buf.map Prod.fst ∧
  (g.buf.map Prod.fst).Nodup ∧
  List.Chain' (fun a b : Nat × Nat => b.2 < a.2) g.buf ∧
  ∀ e ∈ g.buf, e.2 < g.clock

instance : IsTrans (Nat × Nat) (fun a b : Nat × Nat => b.2 < a.2) :=
  ⟨fun _ _ _ h1 h2 => lt_trans h2 h1⟩

/-- `Victim` returns the back of the ring buffer (or `none`). -/
theorem LRUReplacer.Victim_fst (r : LRUReplacer) :
    (r.Victim).1 = r.ring_buffer.getLast? := by
  unfold LRUReplacer.Victim
  cases h : r.ring_buffer.getLast? <;> simp

/-- `Victim` leaves the ring buffer minus its back element. -/
theorem LRUReplacer.Victim_ring (r : LRUReplacer) :
    (r.Victim).2.ring_buffer = r.ring_buffer.dropLast := by
  unfold LRUReplacer.Victim
  cases h : r.ring_buffer.getLast? with
  | none => simp [List.getLast?_eq_none_iff.mp h]
  | some f => simp

/-- `Victim` keeps the capacity. -/
theorem LRUReplacer.Victim_max (r : LRUReplacer) :
    (r.Victim).2.max_num_pages = r.max_num_pages := by
  unfold LRUReplacer.Victim
  cases h : r.ring_buffer.getLast? <;> simp


/-- Each replacer call preserves the simulation invariant. -/
theorem GInv_step (r : LRUReplacer) (g : GReplacer) (op : ROp) (h : GInv r g) :
    GInv (rapply r op) (gapply g op) := by
  obtain ⟨hcap, hring, hnd, hdec, hclk⟩ := h
  cases op with
  | evict =>
    refine ⟨?_, ?_, ?_, ?_, ?_⟩
    · show (r.Victim).2.max_num_pages = (gevict g).cap
      rw [LRUReplacer.Victim_max, gevict, hcap]
    · show (r.Victim).2.ring_buffer = (gevict g).buf.map Prod.fst
      rw [LRUReplacer.Victim_ring, gevict, hring, List.map_dropLast]
    · exact List.Nodup.sublist (List.map_dropLast _ _ ▸ List.dropLast_sublist _) hnd
    · exact hdec.prefix (List.dropLast_prefix _)
    · exact fun e he => hclk e ((List.dropLast_sublist _).mem he)
  | untrack f =>
    by_cases hm : f ∈ g.buf.map Prod.fst
    · have hmr : f ∈ r.ring_buffer := by rw [hring]; exact hm
      have hr : rapply r (ROp.untrack f) =
          ⟨r.max_num_pages, r.ring_buffer.erase f⟩ := by
        simp [rapply, LRUReplacer.Pin, hmr]
      have hfilt : (g.buf.map Prod.fst).filter (fun x => x != f) =
          (g.buf.filter (fun e => e.1 != f)).map Prod.fst := by
        simpa [Function.comp] using List.filter_map (p := fun x => x != f) Prod.fst g.buf
      rw [hr]
      refine ⟨hcap, ?_, ?_, ?_, ?_⟩
      · show r.ring_buffer.erase f = (guntrack g f).buf.map Prod.fst
        rw [guntrack, hring, List.Nodup.erase_eq_filter hnd, hfilt]
      · show ((guntrack g f).buf.map Prod.fst).Nodup
        rw [guntrack]
        exact hfilt ▸ List.Nodup.filter _ hnd
      · exact hdec.sublist (List.filter_sublist _)
      · exact fun e he => hclk e ((List.filter_sublist _).mem he)
    · have hmr : f ∉ r.ring_buffer := by rw [hring]; exact hm
      have hfilt : g.buf.filter (fun e => e.1 != f) = g.buf := by
        refine List.filter_eq_self.mpr (fun e he => ?_)
        have he1 : e.1 ≠ f := fun hh => hm (hh ▸ List.mem_map_of_mem Prod.fst he)
        simpa using he1
      have hg : gapply g (ROp.untrack f) = g := by
        show guntrack g f = g
        rw [guntrack, hfilt]
      have hr : rapply r (ROp.untrack f) = r := by
        show LRUReplacer.Pin r f = r
        rw [LRUReplacer.Pin, if_neg hmr]
      rw [hg, hr]
      exact ⟨hcap, hring, hnd, hdec, hclk⟩
  | track f =>
    by_cases hm : f ∈ g.buf.map Prod.fst
    · have hmr : f ∈ r.ring_buffer := by rw [hring]; exact hm
      have hg : gapply g (ROp.track f) = g := by
        show gtrack g f = g
        rw [gtrack, if_pos hm]
      have hr : rapply r (ROp.track f) = r := by
        show LRUReplacer.Unpin r f = r
        rw [LRUReplacer.Unpin, if_pos hmr]
      rw [hg, hr]
      exact ⟨hcap, hring, hnd, hdec, hclk⟩
    · have hmr : f ∉ r.ring_buffer := by rw [hring]; exact hm
      have hlen : r.ring_buffer.length = g.buf.length := by rw [hring, List.length_map]
      by_cases hc : g.buf.length = g.cap
      · have hcr : r.ring_buffer.length = r.max_num_pages := by rw [hlen, hcap, hc]
        have hrg : rapply r (ROp.track f) =
            ⟨r.max_num_pages, f :: r.ring_buffer.dropLast⟩ := by
          show LRUReplacer.Unpin r f = _
          simp only [LRUReplacer.Unpin, if_neg hmr, if_pos hcr, LRUReplacer.Victim_max,
            LRUReplacer.Victim_ring]
        have hgg : gapply g (ROp.track f) =
            ⟨g.cap, (f, g.clock) :: g.buf.dropLast, g.clock + 1⟩ := by
          show gtrack g f = _
          simp only [gtrack, if_neg hm, if_pos hc]
        rw [hrg, hgg]
        refine ⟨hcap, ?_, ?_, ?_, ?_⟩
        · show f :: r.ring_buffer.dropLast = ((f, g.clock) :: g.buf.dropLast).map Prod.fst
          simp only [List.map_cons]
          rw [hring, List.map_dropLast]
        · simp only [List.map_cons]
          refine List.Nodup.cons ?_
            (List.Nodup.sublist (List.map_dropLast _ _ ▸ List.dropLast_sublist _) hnd)
          intro hmem
          exact hm ((List.dropLast_sublist (g.buf.map Prod.fst)).mem
            (List.map_dropLast Prod.fst g.buf ▸ hmem))
        · refine List.chain'_cons'.mpr ⟨?_, hdec.prefix (List.dropLast_prefix _)⟩
          intro y hy
          exact hclk y ((List.dropLast_sublist _).mem (List.mem_of_mem_head? hy))
        · intro e he
          rcases List.mem_cons.mp he with rfl | he2
          · exact Nat.lt_succ_self _
          · exact Nat.lt_succ_of_lt (hclk e ((List.dropLast_sublist _).mem he2))
      · have hcr : ¬ r.ring_buffer.length = r.max_num_pages := by
          rw [hlen, hcap]; exact hc
        have hrg : rapply r (ROp.track f) = ⟨r.max_num_pages, f :: r.ring_buffer⟩ := by
          show LRUReplacer.Unpin r f = _
          simp only [LRUReplacer.Unpin, if_neg hmr, if_neg hcr]
        have hgg : gapply g (ROp.track f) =
            ⟨g.cap, (f, g.clock) :: g.buf, g.clock + 1⟩ := by
          show gtrack g f = _
          simp only [gtrack, if_neg hm, if_neg hc]
        rw [hrg, hgg]
        refine ⟨hcap, ?_, ?_, ?_, ?_⟩
        · show f :: r.ring_buffer = ((f, g.clock) :: g.buf).map Prod.fst
          simp only [List.map_cons]
          rw [hring]
        · exact List.Nodup.cons hm hnd
        · refine List.chain'_cons'.mpr ⟨?_, hdec⟩
          intro y hy
          exact hclk y (List.mem_of_mem_head? hy)
        · intro e he
          rcases List.mem_cons.mp he with rfl | he2
          · exact Nat.lt_succ_self _
          · exact Nat.lt_succ_of_lt (hclk e he2)

/-- The invariant holds for every run of the two models side by side. -/
theorem GInv_run (cap : Nat) (ops : List ROp) : GInv (rrun cap ops) (grun cap ops) := by
  have h : ∀ (l : List ROp) (r : LRUReplacer) (g : GReplacer), GInv r g →
      GInv (l.foldl rapply r) (l.foldl gapply g) := by
    intro l
    induction l with
    | nil => exact fun r g h => h
    | cons op t ih =>
      intro r g h
      exact ih _ _ (GInv_step r g op h)
  exact h ops _ _ ⟨rfl, rfl, List.nodup_nil, List.chain'_nil, by intro e he; cases he⟩

/-- In a stamp-decreasing buffer, the back element has the least stamp, and
strictly so against every other element. -/
theorem stamp_getLast_min : ∀ (l : List (Nat × Nat)),
    List.Chain' (fun a b : Nat × Nat => b.2 < a.2) l →
    ∀ y, l.getLast? = some y → ∀ x ∈ l, x = y ∨ y.2 < x.2 := by
  intro l
  induction l with
  | nil => intro _ y hy; cases hy
  | cons a t ih =>
    intro hdec y hy x hx
    cases t with
    | nil =>
      simp only [List.getLast?_singleton, Option.some.injEq] at hy
      have hxa : x = a := List.mem_singleton.mp hx
      exact Or.inl (hxa.trans hy)
    | cons b t2 =>
      rw [List.getLast?_cons_cons] at hy
      have hR : b.2 < a.2 := (List.chain'_cons.mp hdec).1
      have hc2 := (List.chain'_cons.mp hdec).2
      rcases List.mem_cons.mp hx with rfl | hx2
      · right
        rcases ih hc2 y hy b (List.mem_cons_self b t2) with rfl | hlt
        · exact hR
        · exact lt_trans hlt hR
      · exact ih hc2 y hy x hx2

/-- C7: for every sequence of Eviction Policy calls (`track` = `Unpin`,
`untrack` = `Pin`, `evict` = `Victim`): the ring buffer is the frame
projection of the stamped ghost run; `Victim` signals no victim exactly when
the tracked set is empty; otherwise it removes the back of the recency order
and returns the tracked frame with the least `track` stamp — the frame that
has been evictable longest, recency determined solely by the order of
effective `track` calls, and strictly older than every other tracked frame. -/
theorem C7_victim_is_least_recently_tracked (cap : Nat) (ops : List ROp) :
    (rrun cap ops).ring_buffer = ((grun cap ops).buf).map Prod.fst ∧
    (((rrun cap ops).Victim).1 = none ↔ (rrun cap ops).ring_buffer = []) ∧
    ((rrun cap ops).Victim).2.ring_buffer = (rrun cap ops).ring_buffer.dropLast ∧
    (∀ f, ((rrun cap ops).Victim).1 = some f →
      ∃ s, (f, s) ∈ (grun cap ops).buf ∧
        ∀ e ∈ (grun cap ops).buf, s ≤ e.2 ∧ (e.1 ≠ f → s < e.2)) := by
  obtain ⟨hcap, hring, hnd, hdec, hclk⟩ := GInv_run cap ops
  refine ⟨hring, ?_, LRUReplacer.Victim_ring _, ?_⟩
  · rw [LRUReplacer.Victim_fst]
    exact List.getLast?_eq_none_iff
  · intro f hf
    rw [LRUReplacer.Victim_fst, hring, List.getLast?_map] at hf
    cases hy : (grun cap ops).buf.getLast? with
    | none => rw [hy] at hf; cases hf
    | some y =>
      rw [hy] at hf
      simp only [Option.map_some', Option.some.injEq] at hf
      refine ⟨y.2, ?_, ?_⟩
      · have hmem := List.mem_of_getLast?_eq_some hy
        rw [← hf]
        simpa using hmem
      · intro e he
        rcases stamp_getLast_min _ hdec y hy e he with rfl | hlt
        · exact ⟨le_refl _, fun hne => absurd hf hne⟩
        · exact ⟨le_of_lt hlt, fun _ => hlt⟩

/-- Witness for C7 at a concrete run: capacity 2, track frame 4 then frame 9. -/
theorem C7_victim_witness :
    (rrun 2 [ROp.track 4, ROp.track 9]).ring_buffer =
      ((grun 2 [ROp.track 4, ROp.track 9]).buf).map Prod.fst ∧
    (((rrun 2 [ROp.track 4, ROp.track 9]).Victim).1 = none ↔
      (rrun 2 [ROp.track 4, ROp.track 9]).ring_buffer = []) ∧
    ((rrun 2 [ROp.track 4, ROp.track 9]).Victim).2.ring_buffer =
      (rrun 2 [ROp.track 4, ROp.track 9]).ring_buffer.dropLast ∧
    (∀ f, ((rrun 2 [ROp.track 4, ROp.track 9]).Victim).1 = some f →
      ∃ s, (f, s) ∈ (grun 2 [ROp.track 4, ROp.track 9]).buf ∧
        ∀ e ∈ (grun 2 [ROp.track 4, ROp.track 9]).buf, s ≤ e.2 ∧ (e.1 ≠ f → s < e.2)) :=
  C7_victim_is_least_recently_tracked 2 [ROp.track 4, ROp.track 9]

/-- Pool reached by: Fetch(5), Unpin(5, clean). Frame 0 then holds page 5
with protection count zero and is tracked by the replacer. -/
def c1state : BufferPoolManager :=
  runOps (BufferPoolManager.new 1) [Op.fetch 5, Op.unpin 5 false]

/-- C1 is violated by `DeletePageImpl`: on a pool of one frame, after
Fetch(5) and Unpin(5, clean), DeletePage(5) succeeds on the resident,
unprotected page, yet the freed frame 0 is still tracked by the Eviction
Policy while the page table has become empty — a tracked frame with no valid
page-table entry, and the freed frame was not untracked. -/
theorem C1_delete_leaves_freed_frame_tracked :
    ptFind c1state.page_table 5 = some 0 ∧
    (c1state.getPage 0).pin_count = 0 ∧
    (c1state.DeletePageImpl 5).1 = true ∧
    ((c1state.DeletePageImpl 5).2).replacer.ring_buffer = [0] ∧
    ((c1state.DeletePageImpl 5).2).page_table = [] ∧
    ((c1state.DeletePageImpl 5).2).free_list = [0] := by decide

/-- Pool reached by: Fetch(5), caller writes bytes 42 into frame 0,
Unpin(5, dirty), Fetch(7) — the fetch that must write the dirty victim
page 5 back before reuse. -/
def c2mid : BufferPoolManager :=
  runOps ((runOps (BufferPoolManager.new 1) [Op.fetch 5]).writeData 0 42)
    [Op.unpin 5 true, Op.fetch 7]

/-- Continuation of `c2mid`: Unpin(7, clean) then re-fetch page 5. -/
def c2state : BufferPoolManager :=
  runOps c2mid [Op.unpin 7 false, Op.fetch 5]

/-- C2 is violated: evicting the dirty page 5 during Fetch(7) writes its
bytes to the external store under identifier 0 (the source flushes
`page_table_[frame_id]`, keying the page table by the frame index), not
under identifier 5; re-fetching page 5 afterwards yields the zero buffer
instead of the previously written bytes 42. -/
theorem C2_writeback_goes_to_wrong_identifier :
    c2mid.dm.disk = [(0, 42)] ∧
    c2mid.dm.ReadPage 5 = 0 ∧
    (c2state.getPage 0).page_id = 5 ∧
    (c2state.getPage 0).data = 0 ∧
    c2state.dm.ReadPage 5 = 0 ∧
    c2state.dm.ReadPage 0 = 42 := by decide

/-- Pool reached by: Fetch(5), Unpin(5, dirty), Fetch(7). -/
def c3state : BufferPoolManager :=
  runOps (BufferPoolManager.new 1) [Op.fetch 5, Op.unpin 5 true, Op.fetch 7]

/-- C3 is violated: after Fetch(5), Unpin(5, dirty), Fetch(7) on a pool of
one frame, the page table maps both page 0 and page 7 to frame 0 — frame 0
appears under two identifiers, and the entry for page 0 was inserted by the
`operator[]` default-insertion in `FetchPageImpl` although no caller ever
requested page 0 and the store never allocated it. -/
theorem C3_page_table_gains_spurious_entry :
    c3state.page_table = [(0, 0), (7, 0)] ∧
    ptFind c3state.page_table 0 = some 0 ∧
    ptFind c3state.page_table 7 = some 0 := by decide

/-- Pool reached by: Fetch(5), caller writes bytes 42, Unpin(5, dirty),
FlushAll. -/
def c4state : BufferPoolManager :=
  runOps ((runOps (BufferPoolManager.new 1) [Op.fetch 5]).writeData 0 42)
    [Op.unpin 5 true, Op.flushAll]

/-- C4 is violated: with dirty page 5 resident in frame 0, `FlushAllPagesImpl`
passes the frame index `0` to `FlushPageImplL` where a page identifier is
expected; no page with identifier 0 is resident, so nothing is written to the
store and the frame stays dirty — a resident dirty frame is left unflushed. -/
theorem C4_flushall_leaves_dirty_frame_unflushed :
    (c4state.getPage 0).page_id = 5 ∧
    (c4state.getPage 0).is_dirty = true ∧
    c4state.dm.disk = [] := by decide

/-- Pool reached by: Fetch(5), Unpin(5, clean): page 5 resident in frame 0,
protection count zero, clean. -/
def c5state : BufferPoolManager :=
  runOps (BufferPoolManager.new 1) [Op.fetch 5, Op.unpin 5 false]

/-- C5 as stated is false: on a resident page with protection count zero,
Unpin(5, is_dirty := true) fails, but it mutates the frame's dirty flag from
false to true before the underflow check. -/
theorem C5_counterexample_dirty_flag_mutated :
    ptFind c5state.page_table 5 = some 0 ∧
    (c5state.getPage 0).pin_count = 0 ∧
    (c5state.getPage 0).is_dirty = false ∧
    (c5state.UnpinPageImpl 5 true).1 = false ∧
    ((c5state.UnpinPageImpl 5 true).2.getPage 0).is_dirty = true := by decide

/-- Pool reached by: NewPage (id 0), Unpin(0, clean), DeletePage(0),
NewPage (id 1): frame 0 is pinned by page 1, the free pool is empty, yet the
replacer still tracks frame 0 (stale after DeletePage). -/
def c6state : BufferPoolManager :=
  runOps (BufferPoolManager.new 1) [Op.newPage, Op.unpin 0 false, Op.deletePage 0, Op.newPage]

/-- C6 is violated on a reachable state: every frame has protection count
greater than zero and the free pool is empty, yet NewPage succeeds (handing
out frame 0, evicting the pinned page 1) and calls the store's
`allocate_page` (the identifier counter advances), leaking identifier 2. -/
theorem C6_newpage_succeeds_with_all_frames_pinned :
    (∀ f ∈ List.range c6state.pool_size, 0 < (c6state.getPage f).pin_count) ∧
    c6state.free_list = [] ∧
    (c6state.NewPageImpl).1 = some (2, 0) ∧
    (c6state.NewPageImpl).2.dm.next_page_id = c6state.dm.next_page_id + 1 := by decide

/-- C9: calling `track` (`Unpin`) on a frame already in the tracked set is a
no-op — the replacer state, hence the tracked frames and their recency
order, is exactly as before the call. -/
theorem C9_track_on_tracked_frame_is_noop (r : LRUReplacer) (f : Nat)
    (h : f ∈ r.ring_buffer) : r.Unpin f = r := by
  rw [LRUReplacer.Unpin, if_pos h]

/-- Witness for C9: frame 3 is tracked in `⟨2, [5, 3]⟩` and re-tracking it
changes nothing. -/
theorem C9_track_on_tracked_frame_witness :
    3 ∈ (⟨2, [5, 3]⟩ : LRUReplacer).ring_buffer ∧
    (⟨2, [5, 3]⟩ : LRUReplacer).Unpin 3 = ⟨2, [5, 3]⟩ :=
  ⟨by decide, C9_track_on_tracked_frame_is_noop ⟨2, [5, 3]⟩ 3 (by decide)⟩

/-- C10 as stated is false for capacity 0: a replacer constructed with
capacity 0 accepts one tracked frame — `Victim` inside `Unpin` finds the
buffer empty and does nothing, and the frame is pushed anyway, so the
tracked count 1 exceeds the construction capacity 0. -/
theorem C10_counterexample_capacity_zero :
    (LRUReplacer.new 0).max_num_pages = 0 ∧
    ((LRUReplacer.new 0).Unpin 1).Size = 1 := by decide

/-- Writing back a frame's current occupant at index `f` when `f` is in
range. -/
theorem getPage_setPage_self (b : BufferPoolManager) (f : Nat) (x : Page)
    (h : f < b.pages.length) : (b.setPage f x).getPage f = x := by
  simp [BufferPoolManager.getPage, BufferPoolManager.setPage,
    List.getD_eq_getElem?_getD, List.getElem?_set_self h]

/-- Re-storing the page read from a frame leaves the frame array unchanged. -/
theorem set_getD_self (l : List Page) (f : Nat) :
    l.set f (l.getD f Page.init) = l := by
  induction l generalizing f with
  | nil => rfl
  | cons a t ih =>
    cases f with
    | zero => simp
    | succ n =>
      show a :: t.set n (t.getD n Page.init) = a :: t
      rw [ih]

/-- `FlushPageImplL` never touches the replacer. -/
theorem FlushPageImplL_replacer (b : BufferPoolManager) (pid : Int) :
    ((b.FlushPageImplL pid).2).replacer = b.replacer := by
  rw [BufferPoolManager.FlushPageImplL]
  cases h : ptFind b.page_table pid with
  | none => rfl
  | some f =>
    by_cases hd : (b.getPage f).is_dirty
    · simp [hd, BufferPoolManager.setPage]
    · simp [hd]

/-- `FlushPageImplL` never touches the free list. -/
theorem FlushPageImplL_free_list (b : BufferPoolManager) (pid : Int) :
    ((b.FlushPageImplL pid).2).free_list = b.free_list := by
  rw [BufferPoolManager.FlushPageImplL]
  cases h : ptFind b.page_table pid with
  | none => rfl
  | some f =>
    by_cases hd : (b.getPage f).is_dirty
    · simp [hd, BufferPoolManager.setPage]
    · simp [hd]

/-- C5 (amended): Unpin on a resident page whose protection count is already
zero fails and leaves the page table, free pool, Eviction Policy state, and
the external store untouched, and the frame array is changed only in the
frame's dirty flag, which becomes `is_dirty_before || is_dirty_argument` (set
to true when the caller passes `is_dirty = true`, unchanged otherwise). -/
theorem C5_amended_unpin_at_zero_mutates_only_dirty_flag
    (b : BufferPoolManager) (pid : Int) (f : Nat) (d : Bool)
    (hf : ptFind b.page_table pid = some f)
    (hp : (b.getPage f).pin_count = 0) :
    (b.UnpinPageImpl pid d).1 = false ∧
    (b.UnpinPageImpl pid d).2.page_table = b.page_table ∧
    (b.UnpinPageImpl pid d).2.free_list = b.free_list ∧
    (b.UnpinPageImpl pid d).2.replacer = b.replacer ∧
    (b.UnpinPageImpl pid d).2.dm = b.dm ∧
    (b.UnpinPageImpl pid d).2.pages =
      b.pages.set f { b.getPage f with is_dirty := (b.getPage f).is_dirty || d } := by
  cases d with
  | false =>
    have hgoal : b.UnpinPageImpl pid false = (false, b) := by
      simp only [BufferPoolManager.UnpinPageImpl, hf]
      simp [hp]
    rw [hgoal]
    refine ⟨rfl, rfl, rfl, rfl, rfl, ?_⟩
    simp only [Bool.or_false]
    exact (set_getD_self b.pages f).symm
  | true =>
    by_cases hlt : f < b.pages.length
    · have hset := getPage_setPage_self b f { b.getPage f with is_dirty := true } hlt
      have hp1 : ((b.setPage f { b.getPage f with is_dirty := true }).getPage f).pin_count
          = 0 := by rw [hset]; exact hp
      have hgoal : b.UnpinPageImpl pid true =
          (false, b.setPage f { b.getPage f with is_dirty := true }) := by
        simp only [BufferPoolManager.UnpinPageImpl, hf]
        simp [hp1]
      rw [hgoal]
      exact ⟨rfl, rfl, rfl, rfl, rfl, by simp [BufferPoolManager.setPage]⟩
    · have hle : b.pages.length ≤ f := le_of_not_lt hlt
      have hb1 : b.setPage f { b.getPage f with is_dirty := true } = b := by
        show ({ b with pages := _ } : BufferPoolManager) = b
        rw [List.set_eq_of_length_le hle]
      have hgoal : b.UnpinPageImpl pid true = (false, b) := by
        simp only [BufferPoolManager.UnpinPageImpl, hf, hb1]
        simp [hp]
      rw [hgoal]
      refine ⟨rfl, rfl, rfl, rfl, rfl, ?_⟩
      rw [List.set_eq_of_length_le hle]

/-- Witness for C5 (amended) at the concrete state `c5state`. -/
theorem C5_amended_witness :
    ptFind c5state.page_table 5 = some 0 ∧
    (c5state.getPage 0).pin_count = 0 ∧
    ((c5state.UnpinPageImpl 5 true).1 = false ∧
      (c5state.UnpinPageImpl 5 true).2.page_table = c5state.page_table ∧
      (c5state.UnpinPageImpl 5 true).2.free_list = c5state.free_list ∧
      (c5state.UnpinPageImpl 5 true).2.replacer = c5state.replacer ∧
      (c5state.UnpinPageImpl 5 true).2.dm = c5state.dm ∧
      (c5state.UnpinPageImpl 5 true).2.pages =
        c5state.pages.set 0
          { c5state.getPage 0 with is_dirty := (c5state.getPage 0).is_dirty || true }) :=
  ⟨by decide, by decide,
    C5_amended_unpin_at_zero_mutates_only_dirty_flag c5state 5 0 true (by decide) (by decide)⟩

/-- C8: whenever the free pool is non-empty, victim selection takes the front
of the free list without consulting the Eviction Policy; both a missing
Fetch and NewPage therefore return that free frame and leave the replacer
exactly as it was. -/
theorem C8_free_pool_preferred_over_eviction
    (b : BufferPoolManager) (pid : Int) (f : Nat) (rest : List Nat)
    (hfree : b.free_list = f :: rest) (hmiss : ptFind b.page_table pid = none) :
    b.PickVictimFrameL = (some f, { b with free_list := rest }) ∧
    (b.FetchPageImpl pid).1 = some f ∧
    (b.FetchPageImpl pid).2.replacer = b.replacer ∧
    ((b.NewPageImpl).1).map Prod.snd = some f ∧
    (b.NewPageImpl).2.replacer = b.replacer := by
  have hpick : b.PickVictimFrameL = (some f, { b with free_list := rest }) := by
    simp [BufferPoolManager.PickVictimFrameL, hfree]
  have hnp : b.AllPagesPinnedL = false := by
    simp [BufferPoolManager.AllPagesPinnedL, hfree]
  have hpick0 : ({ b with dm := (b.dm.AllocatePage).2 } : BufferPoolManager).PickVictimFrameL
      = (some f, { b with dm := (b.dm.AllocatePage).2, free_list := rest }) := by
    simp [BufferPoolManager.PickVictimFrameL, hfree]
  refine ⟨hpick, ?_, ?_, ?_, ?_⟩
  · simp only [BufferPoolManager.FetchPageImpl, hmiss, hpick]
  · simp only [BufferPoolManager.FetchPageImpl, hmiss, hpick]
    split <;> simp [FlushPageImplL_replacer, BufferPoolManager.setPage]
  · simp only [BufferPoolManager.NewPageImpl, hnp, Bool.false_eq_true, if_false, hpick0]
    rfl
  · simp only [BufferPoolManager.NewPageImpl, hnp, Bool.false_eq_true, if_false, hpick0]
    split <;> simp [FlushPageImplL_replacer, BufferPoolManager.setPage]

/-- Witness for C8: pool of two frames after Fetch(5); the free pool still
holds frame 1, and page 7 is not resident. -/
theorem C8_free_pool_preferred_witness :
    (runOps (BufferPoolManager.new 2) [Op.fetch 5]).free_list = 1 :: [] ∧
    ptFind (runOps (BufferPoolManager.new 2) [Op.fetch 5]).page_table 7 = none ∧
    ((runOps (BufferPoolManager.new 2) [Op.fetch 5]).PickVictimFrameL =
      (some 1, { runOps (BufferPoolManager.new 2) [Op.fetch 5] with free_list := [] }) ∧
    ((runOps (BufferPoolManager.new 2) [Op.fetch 5]).FetchPageImpl 7).1 = some 1 ∧
    ((runOps (BufferPoolManager.new 2) [Op.fetch 5]).FetchPageImpl 7).2.replacer =
      (runOps (BufferPoolManager.new 2) [Op.fetch 5]).replacer ∧
    (((runOps (BufferPoolManager.new 2) [Op.fetch 5]).NewPageImpl).1).map Prod.snd = some 1 ∧
    ((runOps (BufferPoolManager.new 2) [Op.fetch 5]).NewPageImpl).2.replacer =
      (runOps (BufferPoolManager.new 2) [Op.fetch 5]).replacer) :=
  ⟨by decide, by decide,
    C8_free_pool_preferred_over_eviction
      (runOps (BufferPoolManager.new 2) [Op.fetch 5]) 7 1 [] (by decide) (by decide)⟩

/-- Every replacer call keeps the capacity field. -/
theorem rapply_max (r : LRUReplacer) (op : ROp) :
    (rapply r op).max_num_pages = r.max_num_pages := by
  cases op with
  | track f =>
    show (r.Unpin f).max_num_pages = _
    rw [LRUReplacer.Unpin]
    by_cases h : f ∈ r.ring_buffer
    · rw [if_pos h]
    · rw [if_neg h]
      by_cases hc : r.ring_buffer.length = r.max_num_pages
      · simp only [if_pos hc]
        exact LRUReplacer.Victim_max r
      · simp only [if_neg hc]
  | untrack f =>
    show (r.Pin f).max_num_pages = _
    rw [LRUReplacer.Pin]
    by_cases h : f ∈ r.ring_buffer
    · rw [if_pos h]
    · rw [if_neg h]
  | evict => exact LRUReplacer.Victim_max r

/-- For a positive capacity, every replacer call keeps the tracked count
within the capacity. -/
theorem rapply_length_le (cap : Nat) (hcap : 1 ≤ cap) (r : LRUReplacer)
    (hmax : r.max_num_pages = cap) (hlen : r.ring_buffer.length ≤ cap) (op : ROp) :
    (rapply r op).ring_buffer.length ≤ cap := by
  cases op with
  | untrack f =>
    show (r.Pin f).ring_buffer.length ≤ cap
    rw [LRUReplacer.Pin]
    by_cases h : f ∈ r.ring_buffer
    · rw [if_pos h]
      exact le_trans (List.length_erase_le f r.ring_buffer) hlen
    · rw [if_neg h]; exact hlen
  | evict =>
    show ((r.Victim).2).ring_buffer.length ≤ cap
    rw [LRUReplacer.Victim_ring, List.length_dropLast]
    omega
  | track f =>
    show (r.Unpin f).ring_buffer.length ≤ cap
    rw [LRUReplacer.Unpin]
    by_cases h : f ∈ r.ring_buffer
    · rw [if_pos h]; exact hlen
    · rw [if_neg h]
      by_cases hc : r.ring_buffer.length = r.max_num_pages
      · simp only [if_pos hc]
        show ((r.Victim).2.ring_buffer.length + 1 : Nat) ≤ cap
        rw [LRUReplacer.Victim_ring, List.length_dropLast]
        omega
      · simp only [if_neg hc]
        show (r.ring_buffer.length + 1 : Nat) ≤ cap
        omega

/-- C10 (amended): for every construction capacity of at least one, after
every sequence of Eviction Policy calls the number of tracked frames never
exceeds the capacity; and a `track` of an untracked frame issued at capacity
first silently discards the least-recently-eligible frame (the back of the
recency order) to make room, leaving the count at the capacity. (With
capacity 0, a single `track` makes the count 1, exceeding the capacity.) -/
theorem C10_amended_capacity_bound (cap : Nat) (hcap : 1 ≤ cap) (ops : List ROp) :
    (rrun cap ops).Size ≤ cap ∧
    ((rrun cap ops).ring_buffer.length = cap →
      ∀ f, f ∉ (rrun cap ops).ring_buffer →
        ((rrun cap ops).Unpin f).ring_buffer =
          f :: (rrun cap ops).ring_buffer.dropLast ∧
        ((rrun cap ops).Unpin f).Size = cap) := by
  have hinv : ∀ (l : List ROp) (r : LRUReplacer), r.max_num_pages = cap →
      r.ring_buffer.length ≤ cap →
      (l.foldl rapply r).max_num_pages = cap ∧
      (l.foldl rapply r).ring_buffer.length ≤ cap := by
    intro l
    induction l with
    | nil => exact fun r h1 h2 => ⟨h1, h2⟩
    | cons op t ih =>
      intro r h1 h2
      exact ih _ ((rapply_max r op).trans h1) (rapply_length_le cap hcap r h1 h2 op)
  obtain ⟨hmax, hlen⟩ := hinv ops (LRUReplacer.new cap) rfl (by simp [LRUReplacer.new])
  refine ⟨hlen, ?_⟩
  intro hfull f hf
  have hmax2 : (rrun cap ops).max_num_pages = cap := hmax
  have hcr : (rrun cap ops).ring_buffer.length = (rrun cap ops).max_num_pages := by
    rw [hfull, hmax2]
  constructor
  · rw [LRUReplacer.Unpin, if_neg hf]
    simp only [if_pos hcr]
    show f :: ((rrun cap ops).Victim).2.ring_buffer = _
    rw [LRUReplacer.Victim_ring]
  · rw [LRUReplacer.Unpin, if_neg hf]
    simp only [if_pos hcr]
    show ((rrun cap ops).Victim).2.ring_buffer.length + 1 = cap
    rw [LRUReplacer.Victim_ring, List.length_dropLast]
    omega

/-- Witness for C10 (amended): capacity 1, track frame 3 then frame 8 (the
second track evicts frame 3 silently). -/
theorem C10_amended_capacity_witness :
    1 ≤ 1 ∧
    ((rrun 1 [ROp.track 3, ROp.track 8]).Size ≤ 1 ∧
      ((rrun 1 [ROp.track 3, ROp.track 8]).ring_buffer.length = 1 →
        ∀ f, f ∉ (rrun 1 [ROp.track 3, ROp.track 8]).ring_buffer →
          ((rrun 1 [ROp.track 3, ROp.track 8]).Unpin f).ring_buffer =
            f :: (rrun 1 [ROp.track 3, ROp.track 8]).ring_buffer.dropLast ∧
          ((rrun 1 [ROp.track 3, ROp.track 8]).Unpin f).Size = 1)) :=
  ⟨le_refl 1, C10_amended_capacity_bound 1 (le_refl 1) [ROp.track 3, ROp.track 8]⟩
